import Mathlib

/-!
Shallow embedding of the WATER bootstrap data pipeline and proofs of its
specified properties.  The embedded source files are
`src/water/dicom/bootstrap_data.py`, `src/water/dicom/tcia_client.py` and
`src/water/dicom/orthanc_client.py`.  Network calls, file writes and log
calls are modelled by explicit oracles and by recording the effects
(poll counts, sleep schedules, written files, warning counts) in the
returned values.
-/

/- ===== Upload stage: `_push_files_to_orthanc` (bootstrap_data.py 58-74) ===== -/

/-- Result of one call to `client.upload_dicom_file(path)` as observed by the
loop body of `_push_files_to_orthanc`: either a response dict whose
`Status` field is the given string (a missing field reads as `""` via
`result.get("Status", "")`), or a raised exception. -/
inductive UploadResult where
  | ok (status : String)
  | exn
deriving DecidableEq

/-- The `stats` dict of `_push_files_to_orthanc`. -/
structure UploadStats where
  uploaded : Nat
  already_stored : Nat
  failed : Nat
deriving DecidableEq

/-- One iteration of the upload loop body of `_push_files_to_orthanc`:
`"AlreadyStored"` increments `already_stored`, any other returned status
increments `uploaded`, a raised exception increments `failed`. -/
def pushStep (stats : UploadStats) (r : UploadResult) : UploadStats :=
  match r with
  | .ok status =>
      if status = "AlreadyStored" then
        { stats with already_stored := stats.already_stored + 1 }
      else
        { stats with uploaded := stats.uploaded + 1 }
  | .exn => { stats with failed := stats.failed + 1 }

/-- The upload loop of `_push_files_to_orthanc`, run from an arbitrary
starting counter state. -/
def pushList (stats : UploadStats) (results : List UploadResult) : UploadStats :=
  results.foldl pushStep stats

/-- `_push_files_to_orthanc`: process every file's upload outcome starting
from zeroed counters `{"uploaded": 0, "already_stored": 0, "failed": 0}`. -/
def pushFilesToOrthanc (results : List UploadResult) : UploadStats :=
  pushList ⟨0, 0, 0⟩ results

/-- Sum of the three counters. -/
def statsSum (s : UploadStats) : Nat := s.uploaded + s.already_stored + s.failed

/-- Componentwise order on the counters: every field of `a` is at most the
corresponding field of `b`. -/
def statsLe (a b : UploadStats) : Prop :=
  a.uploaded ≤ b.uploaded ∧ a.already_stored ≤ b.already_stored ∧ a.failed ≤ b.failed

/-- Classifier: outcomes counted by `already_stored`. -/
def isAlreadyStoredR : UploadResult → Bool
  | .ok s => decide (s = "AlreadyStored")
  | .exn => false

/-- Classifier: outcomes counted by `uploaded`. -/
def isUploadedR : UploadResult → Bool
  | .ok s => decide (¬ s = "AlreadyStored")
  | .exn => false

/-- Classifier: outcomes counted by `failed`. -/
def isFailedR : UploadResult → Bool
  | .ok _ => false
  | .exn => true

theorem pushStep_sum (s : UploadStats) (r : UploadResult) :
    statsSum (pushStep s r) = statsSum s + 1 := by
  cases r with
  | ok status =>
      by_cases h : status = "AlreadyStored" <;>
        simp [pushStep, statsSum, h] <;> omega
  | exn => simp [pushStep, statsSum]; omega

theorem pushStep_le (s : UploadStats) (r : UploadResult) :
    statsLe s (pushStep s r) := by
  cases r with
  | ok status =>
      by_cases h : status = "AlreadyStored" <;>
        simp [pushStep, statsLe, h]
  | exn => simp [pushStep, statsLe]

theorem statsLe_trans {a b c : UploadStats} (h1 : statsLe a b) (h2 : statsLe b c) :
    statsLe a c := by
  obtain ⟨u1, a1, f1⟩ := h1
  obtain ⟨u2, a2, f2⟩ := h2
  exact ⟨u1.trans u2, a1.trans a2, f1.trans f2⟩

theorem pushList_sum :
    ∀ (rs : List UploadResult) (s : UploadStats),
      statsSum (pushList s rs) = statsSum s + rs.length := by
  intro rs
  induction rs with
  | nil => intro s; simp [pushList]
  | cons r rest ih =>
      intro s
      have h := ih (pushStep s r)
      simp only [pushList, List.foldl_cons] at h ⊢
      rw [h, pushStep_sum]
      simp only [List.length_cons]
      omega

theorem pushList_le :
    ∀ (rs : List UploadResult) (s : UploadStats), statsLe s (pushList s rs) := by
  intro rs
  induction rs with
  | nil =>
      intro s
      simp [pushList, statsLe]
  | cons r rest ih =>
      intro s
      have h := ih (pushStep s r)
      simp only [pushList, List.foldl_cons] at h ⊢
      exact statsLe_trans (pushStep_le s r) h

theorem pushList_counts :
    ∀ (rs : List UploadResult) (s : UploadStats),
      (pushList s rs).uploaded = s.uploaded + (rs.filter isUploadedR).length ∧
      (pushList s rs).already_stored
        = s.already_stored + (rs.filter isAlreadyStoredR).length ∧
      (pushList s rs).failed = s.failed + (rs.filter isFailedR).length := by
  intro rs
  induction rs with
  | nil => intro s; simp [pushList]
  | cons r rest ih =>
      intro s
      simp only [pushList, List.foldl_cons] at ih ⊢
      cases r with
      | ok status =>
          by_cases hs : status = "AlreadyStored"
          · obtain ⟨hu, ha, hf⟩ :=
              ih { s with already_stored := s.already_stored + 1 }
            simp only [pushStep, hs, if_pos] at hu ha hf ⊢
            simp [isUploadedR, isAlreadyStoredR, isFailedR, hs, hu, ha, hf]
            omega
          · obtain ⟨hu, ha, hf⟩ := ih { s with uploaded := s.uploaded + 1 }
            simp only [pushStep, hs, if_neg, ite_false] at hu ha hf ⊢
            simp [isUploadedR, isAlreadyStoredR, isFailedR, hs, hu, ha, hf]
            omega
      | exn =>
          obtain ⟨hu, ha, hf⟩ := ih { s with failed := s.failed + 1 }
          simp only [pushStep] at hu ha hf ⊢
          simp [isUploadedR, isAlreadyStoredR, isFailedR, hu, ha, hf]
          omega

/-- C1: after the upload stage processes a list of files, the three counters
sum to the number of files submitted; moreover, from any intermediate
counter state, processing any further list only ever increases each counter
(each step adds exactly one to the sum, and the final state dominates the
starting state componentwise). -/
theorem c1_upload_stats_sum_invariant :
    ∀ (results : List UploadResult) (s : UploadStats),
      statsSum (pushFilesToOrthanc results) = results.length ∧
      statsSum (pushList s results) = statsSum s + results.length ∧
      statsLe s (pushList s results) := by
  intro results s
  refine ⟨?_, pushList_sum results s, pushList_le results s⟩
  have h := pushList_sum results ⟨0, 0, 0⟩
  simpa [pushFilesToOrthanc, statsSum] using h

/-- C5: the upload stage classifies every file by its outcome — a returned
`Status` of `"AlreadyStored"` is counted in `already_stored`, any other
returned result in `uploaded`, and a raised error in `failed` while the
loop continues (every element of the list is counted); in particular for
two files whose results have `Status` `"AlreadyStored"` and `"Success"`
the final stats are `{uploaded: 1, already_stored: 1, failed: 0}`. -/
theorem c5_upload_classification :
    ∀ (results : List UploadResult),
      (pushFilesToOrthanc results).already_stored
        = (results.filter isAlreadyStoredR).length ∧
      (pushFilesToOrthanc results).uploaded
        = (results.filter isUploadedR).length ∧
      (pushFilesToOrthanc results).failed
        = (results.filter isFailedR).length ∧
      pushFilesToOrthanc [.ok "AlreadyStored", .ok "Success"]
        = ⟨1, 1, 0⟩ := by
  intro results
  obtain ⟨hu, ha, hf⟩ := pushList_counts results ⟨0, 0, 0⟩
  refine ⟨?_, ?_, ?_, ?_⟩
  · simpa [pushFilesToOrthanc] using ha
  · simpa [pushFilesToOrthanc] using hu
  · simpa [pushFilesToOrthanc] using hf
  · decide

/- ===== Readiness wait: `_wait_for_orthanc` (bootstrap_data.py 41-55) ===== -/

/-- Observable outcome of `_wait_for_orthanc`: whether the function returned
normally (`success = true`) or called `sys.exit(1)` (`success = false`),
how many times `client.is_alive()` was polled, and the sequence of
`time.sleep` delays performed. -/
structure WaitResult where
  success : Bool
  polls : Nat
  sleeps : List Nat
deriving DecidableEq

/-- The loop `for attempt in range(1, max_retries + 1)` of
`_wait_for_orthanc`, started at attempt number `attempt` with `n`
iterations left.  A poll that returns true exits the loop (returning
normally); a failed poll sleeps `d` and continues; an exhausted loop is
`sys.exit(1)`. -/
def waitGo (isAlive : Nat → Bool) (d : Nat) : Nat → Nat → WaitResult
  | _, 0 => ⟨false, 0, []⟩
  | attempt, n + 1 =>
    if isAlive attempt then ⟨true, 1, []⟩
    else
      let r := waitGo isAlive d (attempt + 1) n
      ⟨r.success, r.polls + 1, d :: r.sleeps⟩

/-- `_wait_for_orthanc(client, max_retries, delay)`: run the poll loop from
attempt 1.  The `is_alive` results are supplied as an oracle indexed by
attempt number. -/
def waitForOrthanc (isAlive : Nat → Bool) (maxRetries : Nat) (d : Nat) : WaitResult :=
  waitGo isAlive d 1 maxRetries

/-- Index (1-based) of the first of the `N` polls whose `is_alive` result is
true, if any. -/
def firstTrueIdx (isAlive : Nat → Bool) (N : Nat) : Option Nat :=
  (List.range' 1 N).find? isAlive

theorem waitGo_success :
    ∀ (isAlive : Nat → Bool) (d n a : Nat),
      ((waitGo isAlive d a n).success = true
        ↔ ∃ i, a ≤ i ∧ i < a + n ∧ isAlive i = true) := by
  intro isAlive d n
  induction n with
  | zero =>
      intro a
      constructor
      · intro h; simp [waitGo] at h
      · rintro ⟨i, h1, h2, _⟩; omega
  | succ n ih =>
      intro a
      by_cases h : isAlive a
      · constructor
        · intro _
          exact ⟨a, le_refl a, by omega, h⟩
        · intro _
          simp [waitGo, h]
      · simp only [waitGo, h, if_neg, Bool.false_eq_true, not_false_iff]
        rw [ih (a + 1)]
        constructor
        · rintro ⟨i, h1, h2, h3⟩
          exact ⟨i, by omega, by omega, h3⟩
        · rintro ⟨i, h1, h2, h3⟩
          refine ⟨i, ?_, by omega, h3⟩
          rcases Nat.eq_or_lt_of_le h1 with rfl | hlt
          · exact absurd h3 (by simp [h])
          · omega

theorem waitGo_polls_none :
    ∀ (isAlive : Nat → Bool) (d n a : Nat),
      (List.range' a n).find? isAlive = none →
      (waitGo isAlive d a n).polls = n := by
  intro isAlive d n
  induction n with
  | zero => intro a _; rfl
  | succ n ih =>
      intro a hfind
      rw [List.range'_succ] at hfind
      by_cases ha : isAlive a
      · rw [List.find?_cons_of_pos _ ha] at hfind
        exact absurd hfind (by simp)
      · rw [List.find?_cons_of_neg _ ha] at hfind
        simp only [waitGo, ha, Bool.false_eq_true, if_false]
        rw [ih (a + 1) hfind]

theorem waitGo_polls_some :
    ∀ (isAlive : Nat → Bool) (d n a k : Nat),
      (List.range' a n).find? isAlive = some k →
      (waitGo isAlive d a n).polls = k + 1 - a := by
  intro isAlive d n
  induction n with
  | zero =>
      intro a k h
      simp at h
  | succ n ih =>
      intro a k hfind
      rw [List.range'_succ] at hfind
      by_cases ha : isAlive a
      · rw [List.find?_cons_of_pos _ ha] at hfind
        injection hfind with hk
        subst hk
        simp [waitGo, ha]
      · rw [List.find?_cons_of_neg _ ha] at hfind
        have hk : a + 1 ≤ k := by
          have hmem := List.mem_of_find?_eq_some hfind
          rcases List.mem_range'.mp hmem with ⟨i, _, rfl⟩
          omega
        simp only [waitGo, ha, Bool.false_eq_true, if_false]
        rw [ih (a + 1) k hfind]
        omega

theorem waitGo_sleeps_const :
    ∀ (isAlive : Nat → Bool) (d n a : Nat),
      (waitGo isAlive d a n).sleeps
        = List.replicate (waitGo isAlive d a n).sleeps.length d := by
  intro isAlive d n
  induction n with
  | zero => intro a; rfl
  | succ n ih =>
      intro a
      by_cases h : isAlive a
      · simp [waitGo, h]
      · simp only [waitGo, h, Bool.false_eq_true, if_false]
        simp only [List.length_cons, List.replicate_succ, List.cons.injEq,
          true_and]
        exact ih (a + 1)

theorem range'_find?_none_of_all_false (isAlive : Nat → Bool) :
    ∀ (n a : Nat), (∀ j, a ≤ j → j < a + n → isAlive j = false) →
      (List.range' a n).find? isAlive = none := by
  intro n
  induction n with
  | zero => intro a _; rfl
  | succ n ih =>
      intro a hall
      rw [List.range'_succ]
      rw [List.find?_cons_of_neg]
      · exact ih (a + 1) (fun j h1 h2 => hall j (by omega) (by omega))
      · simp [hall a (le_refl a) (by omega)]

theorem range'_find?_some_of_first (isAlive : Nat → Bool) :
    ∀ (n a k : Nat), a ≤ k → k < a + n → isAlive k = true →
      (∀ j, a ≤ j → j < k → isAlive j = false) →
      (List.range' a n).find? isAlive = some k := by
  intro n
  induction n with
  | zero => intro a k h1 h2; omega
  | succ n ih =>
      intro a k h1 h2 h3 hfirst
      rw [List.range'_succ]
      rcases Nat.eq_or_lt_of_le h1 with rfl | hlt
      · exact List.find?_cons_of_pos _ h3
      · rw [List.find?_cons_of_neg]
        · exact ih (a + 1) k (by omega) (by omega) h3
            (fun j ha hb => hfirst j (by omega) hb)
        · simp [hfirst a (le_refl a) hlt]

/-- C2: for every `is_alive` oracle, number of polls `N` and delay `d`, the
readiness wait succeeds iff some poll among the first `N` returns true
(equivalently, it aborts fatally iff all `N` polls return false), performs
exactly `firstTrueIdx` polls (`N` when no poll succeeds), sleeps a fixed
delay `d` between polls, and when the first true poll overall is poll `k`
it performs exactly `min k N` polls and succeeds iff `k ≤ N`. -/
theorem c2_readiness_wait :
    ∀ (isAlive : Nat → Bool) (N d : Nat),
      ((waitForOrthanc isAlive N d).success = true
        ↔ ∃ i, 1 ≤ i ∧ i ≤ N ∧ isAlive i = true) ∧
      ((waitForOrthanc isAlive N d).success = false
        ↔ ∀ i, 1 ≤ i → i ≤ N → isAlive i = false) ∧
      (waitForOrthanc isAlive N d).polls
        = (match firstTrueIdx isAlive N with
           | some k => k
           | none => N) ∧
      (waitForOrthanc isAlive N d).sleeps
        = List.replicate (waitForOrthanc isAlive N d).sleeps.length d ∧
      (∀ k, 1 ≤ k → isAlive k = true →
        (∀ j, 1 ≤ j → j < k → isAlive j = false) →
        (waitForOrthanc isAlive N d).polls = min k N ∧
        ((waitForOrthanc isAlive N d).success = true ↔ k ≤ N)) := by
  intro isAlive N d
  have hsucc := waitGo_success isAlive d N 1
  have hsucc' : (waitForOrthanc isAlive N d).success = true
      ↔ ∃ i, 1 ≤ i ∧ i ≤ N ∧ isAlive i = true := by
    rw [waitForOrthanc, hsucc]
    constructor
    · rintro ⟨i, h1, h2, h3⟩; exact ⟨i, h1, by omega, h3⟩
    · rintro ⟨i, h1, h2, h3⟩; exact ⟨i, h1, by omega, h3⟩
  refine ⟨hsucc', ?_, ?_, waitGo_sleeps_const isAlive d N 1, ?_⟩
  · constructor
    · intro hfalse
      intro i h1 h2
      by_contra hcon
      have : (waitForOrthanc isAlive N d).success = true :=
        hsucc'.mpr ⟨i, h1, h2, by simpa using hcon⟩
      rw [this] at hfalse
      exact absurd hfalse (by decide)
    · intro hall
      cases hb : (waitForOrthanc isAlive N d).success
      · rfl
      · rcases hsucc'.mp hb with ⟨i, h1, h2, h3⟩
        rw [hall i h1 h2] at h3
        exact absurd h3 (by simp)
  · rw [waitForOrthanc, firstTrueIdx]
    cases hf : (List.range' 1 N).find? isAlive with
    | none => exact waitGo_polls_none isAlive d N 1 hf
    | some k =>
        have := waitGo_polls_some isAlive d N 1 k hf
        have hk : 1 ≤ k := by
          have hmem := List.mem_of_find?_eq_some hf
          rcases List.mem_range'.mp hmem with ⟨i, _, rfl⟩
          omega
        simp only [this]
        omega
  · intro k hk1 hkalive hfirst
    by_cases hkN : k ≤ N
    · have hf : (List.range' 1 N).find? isAlive = some k :=
        range'_find?_some_of_first isAlive N 1 k hk1 (by omega) hkalive
          (fun j h1 h2 => hfirst j h1 h2)
      have hp := waitGo_polls_some isAlive d N 1 k hf
      constructor
      · rw [waitForOrthanc] at *
        rw [hp]
        omega
      · rw [hsucc']
        exact ⟨fun _ => hkN, fun _ => ⟨k, hk1, hkN, hkalive⟩⟩
    · have hall : ∀ j, 1 ≤ j → j ≤ N → isAlive j = false := by
        intro j h1 h2
        exact hfirst j h1 (by omega)
      have hf : (List.range' 1 N).find? isAlive = none :=
        range'_find?_none_of_all_false isAlive N 1
          (fun j h1 h2 => hall j h1 (by omega))
      have hp := waitGo_polls_none isAlive d N 1 hf
      constructor
      · rw [waitForOrthanc] at *
        rw [hp]
        omega
      · rw [hsucc']
        constructor
        · rintro ⟨i, h1, h2, h3⟩
          rw [hall i h1 h2] at h3
          exact absurd h3 (by simp)
        · intro h; omega

/-- Witness for C2 at a concrete oracle: the first true poll is poll 3 with
`N = 12`, so exactly `min 3 12 = 3` polls happen and the wait succeeds. -/
theorem c2_readiness_wait_witness :
    (waitForOrthanc (fun i => decide (i = 3)) 12 5).polls = min 3 12 ∧
    ((waitForOrthanc (fun i => decide (i = 3)) 12 5).success = true ↔ 3 ≤ 12) := by
  have h := c2_readiness_wait (fun i => decide (i = 3)) 12 5
  exact h.2.2.2.2 3 (by decide) (by decide)
    (fun j h1 h2 => by simp only [decide_eq_false_iff_not]; omega)

/- ===== Series download: `TCIAClient.download_series` (tcia_client.py 117-168) ===== -/

/-- A member of a well-formed ZIP archive as seen through `zf.namelist()`
and `zf.read`: its full member name and its byte content (bytes modelled
as `List Nat`). -/
structure ZipMember where
  name : String
  content : List Nat
deriving DecidableEq

/-- One entry of `zf.namelist()` together with the outcome of
`zf.read(member)` on it: the member's bytes, or a `zipfile.BadZipFile`
raised while reading it (a bad CRC-32 or a bad local file header can
raise mid-extraction even when the archive opened). -/
structure ZipItem where
  name : String
  read : Except Unit (List Nat)

/-- The body of a download response: the raw bytes `resp.content`, and the
outcome of `zipfile.ZipFile(io.BytesIO(resp.content))` — the entry list
when the payload opens as a ZIP (each entry's read may still fail), or
`BadZipFile` raised already at open. -/
structure HttpPayload where
  content : List Nat
  parse : Except Unit (List ZipItem)

/-- Characters of a member name split at every `'/'`; separators are
dropped and empty pieces kept. -/
def splitSlash : List Char → List (List Char)
  | [] => [[]]
  | c :: rest =>
    let r := splitSlash rest
    if c = '/' then [] :: r
    else
      match r with
      | [] => [[c]]
      | h :: t => (c :: h) :: t

/-- Last piece of a split member name (empty when there is none). -/
def lastPiece : List (List Char) → List Char
  | [] => []
  | [p] => p
  | _ :: rest => lastPiece rest

/-- `pathlib.PurePath(member).name` for a relative POSIX member name: the
last path component after dropping empty and `"."` components. -/
def baseNameChars (cs : List Char) : List Char :=
  lastPiece ((splitSlash cs).filter (fun p => decide (p ≠ [] ∧ p ≠ ['.'])))

/-- `Path(member).name` lifted to `String`. -/
def baseName (s : String) : String := ⟨baseNameChars s.data⟩

/-- Python's `member.endswith("/")` for a member name: its last character
is `'/'`. -/
def endsWithSlash (s : String) : Bool := s.data.getLast? == some '/'

/-- Effects of the extraction part of `download_series`: the returned list
of paths (`extracted_files`), the ordered log of `write_bytes` calls
(path, content), and the number of `logger.warning` calls. -/
structure ExtractResult where
  files : List String
  writes : List (String × List Nat)
  warnings : Nat
deriving DecidableEq

/-- What the member loop had done when it ended: the target paths appended
to `extracted_files`, the `write_bytes` calls performed, and whether the
loop was aborted by a `BadZipFile` raised from `zf.read`. -/
structure LoopOutcome where
  files : List String
  writes : List (String × List Nat)
  aborted : Bool
deriving DecidableEq

/-- The member loop of `download_series` over `zf.namelist()`: an entry
whose name ends with `"/"` is skipped as a directory; otherwise `zf.read`
runs — on success the content is written to
`seriesDir/<Path(member).name>` and the target path appended to
`extracted_files`, and on a raised `BadZipFile` the loop aborts, keeping
whatever it had already appended and written (the exception leaves the
`try` block). -/
def extractLoop (seriesDir : String) : List ZipItem → LoopOutcome
  | [] => ⟨[], [], false⟩
  | it :: rest =>
    if endsWithSlash it.name then extractLoop seriesDir rest
    else
      match it.read with
      | .ok content =>
        let target := seriesDir ++ "/" ++ baseName it.name
        let r := extractLoop seriesDir rest
        ⟨target :: r.files, (target, content) :: r.writes, r.aborted⟩
      | .error _ => ⟨[], [], true⟩

/-- The `try` block of `download_series`: open the payload as a ZIP and
run the member loop; `aborted` holds when `zipfile.ZipFile` itself or some
`zf.read` raised `BadZipFile`. -/
def tryExtract (seriesDir : String) (payload : HttpPayload) : LoopOutcome :=
  match payload.parse with
  | .ok items => extractLoop seriesDir items
  | .error _ => ⟨[], [], true⟩

/-- The post-HTTP part of `download_series` (tcia_client.py 141-168):
build `series_dir = output_dir/<series_instance_uid>`, run the `try`
block, and in the `except zipfile.BadZipFile` branch log a warning, write
the whole payload to `series_dir/<series_instance_uid>.dcm` and append
that path to the `extracted_files` collected before the failure. -/
def downloadSeriesExtract (outputDir seriesUid : String) (payload : HttpPayload) :
    ExtractResult :=
  let seriesDir := outputDir ++ "/" ++ seriesUid
  let r := tryExtract seriesDir payload
  if r.aborted then
    let single := seriesDir ++ "/" ++ seriesUid ++ ".dcm"
    ⟨r.files ++ [single], r.writes ++ [(single, payload.content)], 1⟩
  else
    ⟨r.files, r.writes, 0⟩

/-- A payload that opens as a ZIP archive and whose every member read
succeeds. -/
def wellFormedZip (members : List ZipMember) (raw : List Nat) : HttpPayload :=
  ⟨raw, .ok (members.map (fun m => ⟨m.name, .ok m.content⟩))⟩

/-- Content a path holds after a write log is replayed in order: the last
write to that path wins; `none` if the path was never written. -/
def lastWrite (ws : List (String × List Nat)) (p : String) : Option (List Nat) :=
  ((ws.filter (fun w => w.1 == p)).getLast?).map Prod.snd

theorem splitSlash_no_slash :
    ∀ (cs : List Char), ∀ p ∈ splitSlash cs, '/' ∉ p := by
  intro cs
  induction cs with
  | nil =>
      intro p hp
      simp only [splitSlash, List.mem_singleton] at hp
      subst hp
      simp
  | cons c rest ih =>
      intro p hp
      by_cases hc : c = '/'
      · simp only [splitSlash, hc, if_pos] at hp
        rcases List.mem_cons.mp hp with rfl | hp'
        · simp
        · exact ih p hp'
      · simp only [splitSlash, hc, if_neg, if_false] at hp
        cases hr : splitSlash rest with
        | nil =>
            rw [hr] at hp
            simp only [List.mem_singleton] at hp
            subst hp
            intro hmem
            rcases List.mem_singleton.mp hmem with rfl
            exact hc rfl
        | cons h t =>
            rw [hr] at hp
            rcases List.mem_cons.mp hp with rfl | hp'
            · intro hmem
              rcases List.mem_cons.mp hmem with rfl | hmem'
              · exact hc rfl
              · exact ih h (hr ▸ List.mem_cons_self h t) hmem'
            · exact ih p (hr ▸ List.mem_cons_of_mem h hp')

theorem lastPiece_mem_or_nil :
    ∀ (l : List (List Char)), l = [] ∨ lastPiece l ∈ l := by
  intro l
  induction l with
  | nil => exact Or.inl rfl
  | cons x xs ih =>
      right
      cases xs with
      | nil => simp [lastPiece]
      | cons y ys =>
          rcases ih with h | h
          · exact absurd h (by simp)
          · exact List.mem_cons_of_mem x (by simpa [lastPiece] using h)

theorem baseNameChars_no_slash (cs : List Char) :
    (baseNameChars cs).contains '/' = false := by
  have hnot : '/' ∉ baseNameChars cs := by
    unfold baseNameChars
    rcases lastPiece_mem_or_nil
        ((splitSlash cs).filter (fun p => decide (p ≠ [] ∧ p ≠ ['.']))) with h | h
    · rw [h]
      simp [lastPiece]
    · exact splitSlash_no_slash cs _ (List.mem_of_mem_filter h)
  simpa [List.contains, List.elem_eq_mem] using hnot

theorem extractLoop_all_ok (seriesDir : String) :
    ∀ (members : List ZipMember),
      extractLoop seriesDir (members.map (fun m => ⟨m.name, .ok m.content⟩))
        = ⟨(members.filter (fun m => ! endsWithSlash m.name)).map
              (fun m => seriesDir ++ "/" ++ baseName m.name),
           (members.filter (fun m => ! endsWithSlash m.name)).map
              (fun m => (seriesDir ++ "/" ++ baseName m.name, m.content)),
           false⟩ := by
  intro members
  induction members with
  | nil => rfl
  | cons m rest ih =>
      by_cases h : endsWithSlash m.name
      · simp [extractLoop, h, ih]
      · simp [extractLoop, h, ih]

theorem extractLoop_abort (seriesDir : String) :
    ∀ (pre : List ZipMember) (bad : ZipItem) (post : List ZipItem),
      bad.read = .error () →
      endsWithSlash bad.name = false →
      extractLoop seriesDir
          ((pre.map (fun m => ⟨m.name, .ok m.content⟩)) ++ bad :: post)
        = ⟨(pre.filter (fun m => ! endsWithSlash m.name)).map
              (fun m => seriesDir ++ "/" ++ baseName m.name),
           (pre.filter (fun m => ! endsWithSlash m.name)).map
              (fun m => (seriesDir ++ "/" ++ baseName m.name, m.content)),
           true⟩ := by
  intro pre
  induction pre with
  | nil =>
      intro bad post hread hname
      simp [extractLoop, hname, hread]
  | cons m rest ih =>
      intro bad post hread hname
      by_cases h : endsWithSlash m.name
      · simp [extractLoop, h, ih bad post hread hname]
      · simp [extractLoop, h, ih bad post hread hname]

/-- Counterexample to C6 as stated: a payload that opens as a ZIP but
raises `BadZipFile` while reading its second member fails archive
extraction, yet `download_series` returns two output paths — the member
extracted before the failure plus the fallback file — not exactly one. -/
theorem c6_counterexample_partial_extraction :
    (downloadSeriesExtract "out" "uid"
        ⟨[9, 9], .ok [⟨"good.dcm", .ok [1, 2]⟩, ⟨"bad.dcm", .error ()⟩]⟩).files
      = ["out/uid/good.dcm", "out/uid/uid.dcm"] ∧
    (downloadSeriesExtract "out" "uid"
        ⟨[9, 9], .ok [⟨"good.dcm", .ok [1, 2]⟩,
          ⟨"bad.dcm", .error ()⟩]⟩).files.length = 2 := by
  constructor <;> decide

/-- C6 (amended): on every `BadZipFile` extraction failure the client does
not raise: it logs one warning, writes the whole payload to the fallback
path `output_dir/<uid>/<uid>.dcm`, and appends that path to the files
extracted before the failure — so the returned list is exactly the one
fallback path when the payload failed to open as a ZIP at all, and the
already-extracted paths followed by the fallback path when the failure
struck mid-extraction. -/
theorem c6_badzip_fallback_amended :
    ∀ (outputDir seriesUid : String) (raw : List Nat)
      (pre : List ZipMember) (bad : ZipItem) (post : List ZipItem),
      bad.read = .error () →
      endsWithSlash bad.name = false →
      ((downloadSeriesExtract outputDir seriesUid ⟨raw, .error ()⟩).files
          = [outputDir ++ "/" ++ seriesUid ++ "/" ++ seriesUid ++ ".dcm"] ∧
        (downloadSeriesExtract outputDir seriesUid ⟨raw, .error ()⟩).files.length
          = 1 ∧
        (downloadSeriesExtract outputDir seriesUid ⟨raw, .error ()⟩).warnings
          = 1 ∧
        lastWrite (downloadSeriesExtract outputDir seriesUid ⟨raw, .error ()⟩).writes
            (outputDir ++ "/" ++ seriesUid ++ "/" ++ seriesUid ++ ".dcm")
          = some raw) ∧
      ((downloadSeriesExtract outputDir seriesUid
            ⟨raw, .ok ((pre.map (fun m => ⟨m.name, .ok m.content⟩))
              ++ bad :: post)⟩).files
          = (pre.filter (fun m => ! endsWithSlash m.name)).map
              (fun m => outputDir ++ "/" ++ seriesUid ++ "/" ++ baseName m.name)
            ++ [outputDir ++ "/" ++ seriesUid ++ "/" ++ seriesUid ++ ".dcm"] ∧
        (downloadSeriesExtract outputDir seriesUid
            ⟨raw, .ok ((pre.map (fun m => ⟨m.name, .ok m.content⟩))
              ++ bad :: post)⟩).warnings = 1 ∧
        lastWrite (downloadSeriesExtract outputDir seriesUid
            ⟨raw, .ok ((pre.map (fun m => ⟨m.name, .ok m.content⟩))
              ++ bad :: post)⟩).writes
            (outputDir ++ "/" ++ seriesUid ++ "/" ++ seriesUid ++ ".dcm")
          = some raw) := by
  intro o u raw pre bad post hread hname
  have habort := extractLoop_abort (o ++ "/" ++ u) pre bad post hread hname
  constructor
  · refine ⟨rfl, rfl, rfl, ?_⟩
    simp [downloadSeriesExtract, tryExtract, lastWrite]
  · refine ⟨?_, ?_, ?_⟩
    · simp [downloadSeriesExtract, tryExtract, habort]
    · simp [downloadSeriesExtract, tryExtract, habort]
    · simp only [downloadSeriesExtract, tryExtract, habort, if_pos, lastWrite,
        List.filter_append]
      simp

/-- Witness for the amended C6 at a concrete mid-extraction failure: one
member extracted, then a read failure, so the result is that member's
path followed by the fallback path, with the payload's bytes at the
fallback path. -/
theorem c6_badzip_fallback_amended_witness :
    (downloadSeriesExtract "out" "uid"
        ⟨[7], .ok ((([⟨"a/f.dcm", [1]⟩] : List ZipMember).map
            (fun m => ⟨m.name, .ok m.content⟩))
          ++ (⟨"bad.dcm", .error ()⟩ : ZipItem) :: [])⟩).files
      = (([⟨"a/f.dcm", [1]⟩] : List ZipMember).filter
            (fun m => ! endsWithSlash m.name)).map
          (fun m => "out" ++ "/" ++ "uid" ++ "/" ++ baseName m.name)
        ++ ["out" ++ "/" ++ "uid" ++ "/" ++ "uid" ++ ".dcm"] ∧
    (downloadSeriesExtract "out" "uid"
        ⟨[7], .ok ((([⟨"a/f.dcm", [1]⟩] : List ZipMember).map
            (fun m => ⟨m.name, .ok m.content⟩))
          ++ (⟨"bad.dcm", .error ()⟩ : ZipItem) :: [])⟩).warnings = 1 ∧
    lastWrite (downloadSeriesExtract "out" "uid"
        ⟨[7], .ok ((([⟨"a/f.dcm", [1]⟩] : List ZipMember).map
            (fun m => ⟨m.name, .ok m.content⟩))
          ++ (⟨"bad.dcm", .error ()⟩ : ZipItem) :: [])⟩).writes
        ("out" ++ "/" ++ "uid" ++ "/" ++ "uid" ++ ".dcm")
      = some [7] :=
  (c6_badzip_fallback_amended "out" "uid" [7] [⟨"a/f.dcm", [1]⟩]
    ⟨"bad.dcm", .error ()⟩ [] rfl (by decide)).2

/-- C10: for a well-formed ZIP payload the client writes every
non-directory member into `output_dir/<uid>/` under the member's base
file name only (directory components of the member path are discarded and
base names never contain a path separator, so no returned path lies in a
nested subdirectory); two members sharing a base name target the same
path — both occurrences appear in the returned list and the later write
overwrites the earlier one. -/
theorem c10_zip_extraction_flattening :
    ∀ (outputDir seriesUid : String) (members : List ZipMember)
      (raw : List Nat) (cs : List Char) (c1 c2 : List Nat),
      (downloadSeriesExtract outputDir seriesUid (wellFormedZip members raw)).files
        = (members.filter (fun m => ! endsWithSlash m.name)).map
            (fun m => outputDir ++ "/" ++ seriesUid ++ "/" ++ baseName m.name) ∧
      (baseNameChars cs).contains '/' = false ∧
      (downloadSeriesExtract outputDir seriesUid
          (wellFormedZip [⟨"a/x.dcm", c1⟩, ⟨"b/x.dcm", c2⟩] raw)).files
        = [outputDir ++ "/" ++ seriesUid ++ "/" ++ "x.dcm",
           outputDir ++ "/" ++ seriesUid ++ "/" ++ "x.dcm"] ∧
      lastWrite (downloadSeriesExtract outputDir seriesUid
          (wellFormedZip [⟨"a/x.dcm", c1⟩, ⟨"b/x.dcm", c2⟩] raw)).writes
          (outputDir ++ "/" ++ seriesUid ++ "/" ++ "x.dcm")
        = some c2 := by
  intro o u members raw cs c1 c2
  have hall := extractLoop_all_ok (o ++ "/" ++ u) members
  have hb1 : baseName "a/x.dcm" = "x.dcm" := by decide
  have hb2 : baseName "b/x.dcm" = "x.dcm" := by decide
  have he1 : endsWithSlash "a/x.dcm" = false := by decide
  have he2 : endsWithSlash "b/x.dcm" = false := by decide
  refine ⟨?_, baseNameChars_no_slash cs, ?_, ?_⟩
  · simp [downloadSeriesExtract, tryExtract, wellFormedZip, hall]
  · simp [downloadSeriesExtract, tryExtract, wellFormedZip, extractLoop,
      he1, he2, hb1, hb2]
  · simp [downloadSeriesExtract, tryExtract, wellFormedZip, extractLoop,
      lastWrite, he1, he2, hb1, hb2]

/- ===== Storage liveness probe: `OrthancClient.get_system_info` / `is_alive`
   (orthanc_client.py 69-85) ===== -/

/-- Outcome of the HTTP probe `GET /system` performed by
`get_system_info`: a 2xx response with a well-formed JSON body, an httpx
error (connection failure, timeout, or the `HTTPStatusError` raised by
`raise_for_status()` on a non-2xx status), or a 2xx response whose body is
not valid JSON, on which `resp.json()` raises `json.JSONDecodeError`. -/
inductive ProbeOutcome where
  | ok (info : List (String × String))
  | connectError
  | timeoutError
  | statusError
  | malformedJson
deriving DecidableEq

/-- Exception classes that can escape `get_system_info`. -/
inductive PyError where
  | connectError
  | timeoutError
  | httpStatusError
  | jsonDecodeError
deriving DecidableEq

/-- Whether an exception is an instance of `httpx.HTTPError`
(`httpx.ConnectError`, `httpx.TimeoutException` and
`httpx.HTTPStatusError` all are, so the handler
`except (httpx.HTTPError, httpx.ConnectError)` catches exactly these;
`json.JSONDecodeError` is a `ValueError`, not an httpx error). -/
def isHttpxError : PyError → Bool
  | .connectError => true
  | .timeoutError => true
  | .httpStatusError => true
  | .jsonDecodeError => false

/-- `get_system_info`: `GET /system`, then `raise_for_status()`, then
`resp.json()`; each failure raises the corresponding exception. -/
def get_system_info (p : ProbeOutcome) : Except PyError (List (String × String)) :=
  match p with
  | .ok info => .ok info
  | .connectError => .error .connectError
  | .timeoutError => .error .timeoutError
  | .statusError => .error .httpStatusError
  | .malformedJson => .error .jsonDecodeError

/-- `is_alive`: call `get_system_info` and return `True`; an exception
caught by `except (httpx.HTTPError, httpx.ConnectError)` becomes the
return value `False`; any other exception propagates. -/
def is_alive (p : ProbeOutcome) : Except PyError Bool :=
  match get_system_info p with
  | .ok _ => .ok true
  | .error e => if isHttpxError e then .ok false else .error e

/-- Counterexample to C10's neighbour claim C8: on a 2xx response whose
body is not valid JSON, `is_alive` does not return `false` — the
`json.JSONDecodeError` raised by `resp.json()` is not caught by the
`except (httpx.HTTPError, httpx.ConnectError)` handler and propagates. -/
theorem c8_counterexample_malformed_json_propagates :
    is_alive ProbeOutcome.malformedJson
      = Except.error PyError.jsonDecodeError ∧
    (is_alive ProbeOutcome.malformedJson).isOk = false := by
  constructor <;> rfl

/-- C8 (amended): `is_alive` returns true iff the probe succeeds with a
parseable body; every httpx error — connection error, timeout, or a
non-2xx status — is converted to the return value false; but a 2xx
response with a malformed (non-JSON) body is the one probe outcome on
which `is_alive` propagates an error instead of returning. -/
theorem c8_is_alive_amended :
    ∀ (p : ProbeOutcome),
      (is_alive p = .ok true ↔ ∃ info, p = .ok info) ∧
      (is_alive p = .ok false
        ↔ (p = .connectError ∨ p = .timeoutError ∨ p = .statusError)) ∧
      (is_alive p = .error .jsonDecodeError ↔ p = .malformedJson) := by
  intro p
  cases p <;> simp [is_alive, get_system_info, isHttpxError]

/- ===== Retry decorators (tcia_client.py 111-116, orthanc_client.py 97-102) ===== -/

/-- Outcome of one attempt at the decorated call body: a normal return, an
exception matched by `retry_if_exception_type((httpx.ConnectError,
httpx.TimeoutException))`, or any other exception (for these calls, the
`httpx.HTTPStatusError` raised by `raise_for_status()` on an HTTP error
status). -/
inductive AttemptOutcome (α : Type) where
  | success (a : α)
  | retryable
  | fatal

/-- What the decorated call ultimately does: return a value, re-raise the
original retryable error after the final attempt (`reraise=True`), or
propagate a non-retryable error. -/
inductive RetryResult (α : Type) where
  | ok (a : α)
  | raisedRetryable
  | raisedFatal

/-- Observable trace of a decorated call: its final outcome, the number of
attempts made, and the back-off sleeps performed between attempts. -/
structure RetryTrace (α : Type) where
  result : RetryResult α
  attempts : Nat
  waits : List Nat

/-- `tenacity.wait_exponential(multiplier, min, max)` after failed attempt
number `n`: tenacity computes `multiplier * exp_base ** (attempt_number - 1)`
and clamps it into `[lo, hi]`. -/
def waitExp (mult lo hi n : Nat) : Nat := max lo (min (mult * 2 ^ (n - 1)) hi)

/-- Back-off schedule of `download_series`:
`wait_exponential(multiplier=2, min=4, max=30)`. -/
def dlWait (n : Nat) : Nat := waitExp 2 4 30 n

/-- Back-off schedule of `upload_dicom`:
`wait_exponential(multiplier=1, min=2, max=10)`. -/
def ulWait (n : Nat) : Nat := waitExp 1 2 10 n

/-- The tenacity retry loop with `stop_after_attempt(maxAttempts)` and
`reraise=True`, at attempt number `attemptNo` with `fuel` iterations
available: a successful attempt returns its value, a non-retryable
exception propagates immediately from the attempt at which it occurs,
and a retryable one either re-raises the original error (when the stop
condition `attemptNo ≥ maxAttempts` holds) or sleeps `w attemptNo` and
tries again. -/
def runRetryGo {α : Type} (oracle : Nat → AttemptOutcome α) (w : Nat → Nat)
    (maxAttempts : Nat) : Nat → Nat → RetryTrace α
  | _, 0 => ⟨.raisedRetryable, 0, []⟩
  | attemptNo, fuel + 1 =>
    match oracle attemptNo with
    | .success a => ⟨.ok a, 1, []⟩
    | .fatal => ⟨.raisedFatal, 1, []⟩
    | .retryable =>
      if maxAttempts ≤ attemptNo then ⟨.raisedRetryable, 1, []⟩
      else
        let r := runRetryGo oracle w maxAttempts (attemptNo + 1) fuel
        ⟨r.result, r.attempts + 1, w attemptNo :: r.waits⟩

/-- A call decorated with
`@retry(retry=..., stop=stop_after_attempt(maxAttempts), wait=w, reraise=True)`,
started at attempt 1. -/
def runRetry {α : Type} (oracle : Nat → AttemptOutcome α) (w : Nat → Nat)
    (maxAttempts : Nat) : RetryTrace α :=
  runRetryGo oracle w maxAttempts 1 maxAttempts

/-- Whether an attempt outcome is the retryable kind. -/
def isRetryable {α : Type} : AttemptOutcome α → Bool
  | .retryable => true
  | _ => false

/-- Number of the first attempt among the three allowed that is not a
retryable failure (`4` when all three would fail retryably). -/
def firstDecisive {α : Type} (oracle : Nat → AttemptOutcome α) : Nat :=
  if isRetryable (oracle 1) = false then 1
  else if isRetryable (oracle 2) = false then 2
  else if isRetryable (oracle 3) = false then 3
  else 4

/-- The final outcome determined by the decisive attempt. -/
def decisiveResult {α : Type} (oracle : Nat → AttemptOutcome α) : RetryResult α :=
  match oracle (min (firstDecisive oracle) 3) with
  | .success a => .ok a
  | .fatal => .raisedFatal
  | .retryable => .raisedRetryable

theorem runRetry3_spec {α : Type} (oracle : Nat → AttemptOutcome α) (w : Nat → Nat) :
    (runRetry oracle w 3).attempts = min (firstDecisive oracle) 3 ∧
    (runRetry oracle w 3).result = decisiveResult oracle ∧
    (runRetry oracle w 3).waits
      = (List.range' 1 (min (firstDecisive oracle) 3 - 1)).map w := by
  rcases h1 : oracle 1 with a1 | _ | _
  · simp [runRetry, runRetryGo, firstDecisive, decisiveResult, isRetryable, h1]
  · rcases h2 : oracle 2 with a2 | _ | _
    · simp [runRetry, runRetryGo, firstDecisive, decisiveResult, isRetryable,
        h1, h2, List.range']
    · rcases h3 : oracle 3 with a3 | _ | _
      · simp [runRetry, runRetryGo, firstDecisive, decisiveResult, isRetryable,
          h1, h2, h3, List.range']
      · simp [runRetry, runRetryGo, firstDecisive, decisiveResult, isRetryable,
          h1, h2, h3, List.range']
      · simp [runRetry, runRetryGo, firstDecisive, decisiveResult, isRetryable,
          h1, h2, h3, List.range']
    · simp [runRetry, runRetryGo, firstDecisive, decisiveResult, isRetryable,
        h1, h2, List.range']
  · simp [runRetry, runRetryGo, firstDecisive, decisiveResult, isRetryable, h1]

/-- C7: both decorated calls make at most 3 attempts; a non-retryable
error (an HTTP error status) propagates from the very attempt at which it
occurs with no further attempts, while connection/timeout errors are
retried; after 3 retryable failures the original error is re-raised; the
sleeps between attempts follow `wait_exponential`, the schedule
`multiplier * 2 ^ (n - 1)` clamped to the configured window — `4s, 4s`
between the three download attempts (growing to the 30s cap at later
attempt numbers) and `2s, 2s` between the three upload attempts (within
the 2-10s window). -/
theorem c7_retry_policy :
    ∀ (α : Type) (oracle : Nat → AttemptOutcome α),
      (runRetry oracle dlWait 3).attempts = min (firstDecisive oracle) 3 ∧
      (runRetry oracle dlWait 3).result = decisiveResult oracle ∧
      (runRetry oracle dlWait 3).waits
        = (List.range' 1 (min (firstDecisive oracle) 3 - 1)).map dlWait ∧
      (runRetry oracle ulWait 3).attempts = min (firstDecisive oracle) 3 ∧
      (runRetry oracle ulWait 3).result = decisiveResult oracle ∧
      (runRetry oracle ulWait 3).waits
        = (List.range' 1 (min (firstDecisive oracle) 3 - 1)).map ulWait ∧
      dlWait 1 = 4 ∧ dlWait 2 = 4 ∧ dlWait 3 = 8 ∧ dlWait 6 = 30 ∧
      ulWait 1 = 2 ∧ ulWait 2 = 2 ∧ ulWait 3 = 4 ∧ ulWait 6 = 10 ∧
      (∀ n, 4 ≤ dlWait n ∧ dlWait n ≤ 30) ∧
      (∀ n, 2 ≤ ulWait n ∧ ulWait n ≤ 10) := by
  intro α oracle
  obtain ⟨da, dr, dw⟩ := runRetry3_spec oracle dlWait
  obtain ⟨ua, ur, uw⟩ := runRetry3_spec oracle ulWait
  refine ⟨da, dr, dw, ua, ur, uw, by decide, by decide, by decide, by decide,
    by decide, by decide, by decide, by decide, ?_, ?_⟩
  · intro n
    simp only [dlWait, waitExp]
    omega
  · intro n
    simp only [ulWait, waitExp]
    omega

/- ===== Orchestrator: `run` (bootstrap_data.py 100-183) ===== -/

/-- A series metadata entry as consumed by the download loop of `run`:
only `series_meta.get("SeriesInstanceUID", "")` drives control flow (the
description, modality and image count feed the progress display only). -/
structure SeriesMeta where
  uid : String
deriving DecidableEq

/-- Result of `tcia.download_series(uid, download_dir)` for one series:
the returned list of extracted file paths, or a raised exception. -/
inductive DownloadOutcome where
  | ok (files : List String)
  | exn
deriving DecidableEq

/-- `selected = series_list[:max_series]` in `run`. -/
def selectSeries (seriesList : List SeriesMeta) (maxSeries : Nat) : List SeriesMeta :=
  seriesList.take maxSeries

/-- One iteration of the download loop of `run` acting on the accumulator
`all_dicom_files`: an entry with an empty `SeriesInstanceUID` is skipped
with a warning; a download that raises is logged and skipped; the files
of a successful download extend the accumulator. -/
def collectStep (download : String → DownloadOutcome)
    (acc : List String) (m : SeriesMeta) : List String :=
  if m.uid = "" then acc
  else
    match download m.uid with
    | .ok files => acc ++ files
    | .exn => acc

/-- The download loop of `run` from a given accumulator state. -/
def collectFilesFrom (download : String → DownloadOutcome)
    (acc : List String) (selected : List SeriesMeta) : List String :=
  selected.foldl (collectStep download) acc

/-- The download loop of `run` starting from `all_dicom_files = []`. -/
def collectFiles (download : String → DownloadOutcome)
    (selected : List SeriesMeta) : List String :=
  collectFilesFrom download [] selected

/-- Files contributed to `all_dicom_files` by a single series entry:
none when the entry is skipped (empty UID) or its download raises. -/
def seriesFiles (download : String → DownloadOutcome) (m : SeriesMeta) : List String :=
  if m.uid = "" then []
  else
    match download m.uid with
    | .ok files => files
    | .exn => []

/-- Environment of one bootstrap run: the `is_alive` poll results by
attempt number, the result of `tcia.get_series(collection)`, the result
of `tcia.download_series` per UID, and the upload outcome per file. -/
structure RunEnv where
  isAlive : Nat → Bool
  discovery : Except Unit (List SeriesMeta)
  download : String → DownloadOutcome
  upload : String → UploadResult

/-- How a run of `run` terminates: normal completion, or one of its four
`sys.exit(1)` paths. -/
inductive RunExit where
  | success
  | fatalReadiness
  | fatalDiscovery
  | fatalEmptyCollection
  | fatalNoFiles
deriving DecidableEq

/-- Observable final state of `run`: how it terminated, whether
`tcia.close()` and `orthanc.close()` were executed, and the upload
stats. -/
structure RunState where
  exit : RunExit
  tciaClosed : Bool
  orthancClosed : Bool
  stats : UploadStats
deriving DecidableEq

/-- The full pipeline `run` (bootstrap_data.py 100-183): readiness wait
(`sys.exit(1)` inside `_wait_for_orthanc` on timeout), `get_series` with
fail-fast on a raised query error and on an empty list, prefix selection,
the download loop, `tcia.close()`, the zero-files fatal check, the upload
stage, and `orthanc.close()` after the summary. -/
def runPipeline (env : RunEnv) (maxSeries maxRetries d : Nat) : RunState :=
  if (waitForOrthanc env.isAlive maxRetries d).success = false then
    ⟨.fatalReadiness, false, false, ⟨0, 0, 0⟩⟩
  else
    match env.discovery with
    | .error _ => ⟨.fatalDiscovery, false, false, ⟨0, 0, 0⟩⟩
    | .ok seriesList =>
      if seriesList = [] then ⟨.fatalEmptyCollection, false, false, ⟨0, 0, 0⟩⟩
      else
        let selected := selectSeries seriesList maxSeries
        let files := collectFiles env.download selected
        if files = [] then ⟨.fatalNoFiles, true, false, ⟨0, 0, 0⟩⟩
        else ⟨.success, true, true, pushFilesToOrthanc (files.map env.upload)⟩

theorem collectFilesFrom_eq (download : String → DownloadOutcome) :
    ∀ (sel : List SeriesMeta) (acc : List String),
      collectFilesFrom download acc sel
        = acc ++ (sel.map (seriesFiles download)).flatten := by
  intro sel
  induction sel with
  | nil => intro acc; simp [collectFilesFrom]
  | cons m rest ih =>
      intro acc
      simp only [collectFilesFrom, List.foldl_cons] at ih ⊢
      rw [ih (collectStep download acc m)]
      by_cases h : m.uid = ""
      · simp [collectStep, seriesFiles, h]
      · cases hd : download m.uid with
        | ok files => simp [collectStep, seriesFiles, h, hd]
        | exn => simp [collectStep, seriesFiles, h, hd]

/-- C3: the files passed to the upload stage are exactly the concatenation
of each selected series' successful download results (skipped entries and
raised downloads contribute nothing, and the loop processes every entry —
splitting the selection anywhere splits the result); their number is the
sum of the per-series counts; and the run aborts fatally right after the
download loop exactly when the loop collected zero files. -/
theorem c3_download_accumulation :
    ∀ (download : String → DownloadOutcome) (sel sel₂ : List SeriesMeta),
      collectFiles download sel = (sel.map (seriesFiles download)).flatten ∧
      (collectFiles download sel).length
        = (sel.map (fun m => (seriesFiles download m).length)).sum ∧
      collectFiles download (sel ++ sel₂)
        = collectFiles download sel ++ collectFiles download sel₂ ∧
      (∀ (env : RunEnv) (ms N d : Nat),
        ((runPipeline env ms N d).exit = .fatalNoFiles
          ↔ (waitForOrthanc env.isAlive N d).success = true ∧
            ∃ l, env.discovery = .ok l ∧ l ≠ [] ∧
              collectFiles env.download (selectSeries l ms) = [])) := by
  intro download sel sel₂
  have hmain : ∀ s, collectFiles download s
      = (s.map (seriesFiles download)).flatten := by
    intro s
    simpa using collectFilesFrom_eq download s []
  refine ⟨hmain sel, ?_, ?_, ?_⟩
  · rw [hmain sel]
    simp only [List.length_flatten, List.map_map]
    rfl
  · rw [hmain sel, hmain sel₂, hmain (sel ++ sel₂)]
    simp
  · intro env ms N d
    unfold runPipeline
    cases hs : (waitForOrthanc env.isAlive N d).success
    · simp [hs]
    · cases hdisc : env.discovery with
      | error e => simp [hs, hdisc]
      | ok l =>
          by_cases hl : l = []
          · simp [hs, hdisc, hl]
          · by_cases hf : collectFiles env.download (selectSeries l ms) = []
            · simp [hs, hdisc, hl, hf]
            · simp [hs, hdisc, hl, hf]

/-- C4: the orchestrator selects exactly the strict list prefix of length
`maxSeries` of the discovery response — the selection is a prefix of the
list, its length is `min maxSeries (length of the list)`, and for a
5-entry response with `maxSeries = 3` exactly the first three entries are
selected, whatever they are. -/
theorem c4_prefix_selection :
    ∀ (seriesList : List SeriesMeta) (maxSeries : Nat),
      selectSeries seriesList maxSeries <+: seriesList ∧
      (selectSeries seriesList maxSeries).length
        = min maxSeries seriesList.length ∧
      (∀ a b c d e : SeriesMeta, selectSeries [a, b, c, d, e] 3 = [a, b, c]) := by
  intro seriesList maxSeries
  refine ⟨List.take_prefix maxSeries seriesList, ?_, ?_⟩
  · simp [selectSeries]
  · intro a b c d e
    rfl

/-- Counterexample to C9: when the storage service never becomes reachable
the run aborts on the readiness path, and neither client has been
explicitly closed when the run ends (`_wait_for_orthanc` calls
`sys.exit(1)` directly, before any `close()`). -/
theorem c9_counterexample_no_close_on_fatal :
    (runPipeline ⟨fun _ => false, .ok [], fun _ => .exn, fun _ => .exn⟩ 3 12 5).exit
      = RunExit.fatalReadiness ∧
    (runPipeline ⟨fun _ => false, .ok [], fun _ => .exn, fun _ => .exn⟩ 3 12 5).orthancClosed
      = false ∧
    (runPipeline ⟨fun _ => false, .ok [], fun _ => .exn, fun _ => .exn⟩ 3 12 5).tciaClosed
      = false := by
  refine ⟨?_, ?_, ?_⟩ <;> rfl

/-- C9 (amended): the two client connections are explicitly closed only on
the normal completion path; the archive client is additionally closed
before the zero-files fatal check (its `close()` precedes that check),
while on every fatal abort path the storage client connection is never
explicitly closed, and on the readiness, discovery and empty-collection
aborts neither connection is. -/
theorem c9_connection_release_amended :
    ∀ (env : RunEnv) (ms N d : Nat),
      (runPipeline env ms N d).orthancClosed
        = decide ((runPipeline env ms N d).exit = .success) ∧
      (runPipeline env ms N d).tciaClosed
        = decide ((runPipeline env ms N d).exit = .success ∨
                  (runPipeline env ms N d).exit = .fatalNoFiles) := by
  intro env ms N d
  unfold runPipeline
  cases hs : (waitForOrthanc env.isAlive N d).success
  · simp
  · cases hdisc : env.discovery with
    | error e => simp
    | ok l =>
        by_cases hl : l = []
        · simp [hl]
        · by_cases hf : collectFiles env.download (selectSeries l ms) = []
          · simp [hl, hf]
          · simp [hl, hf]
